import Mathlib

/-!
Shallow embedding of the per-group ledger logic of `src/dsf.py`.

The program keeps one SQLite database per group (`get_db_path`), so the whole
mutable state relevant to one group is modelled as a single `DSF.GState`:
the `cycles`, `bills` and `previous_balances` tables (rows in insertion
order, with the AUTOINCREMENT counters made explicit) together with the
process-wide active-cycle cache (`context.bot_data["active_cycle_<gid>"]`).
The `group_id` columns are omitted: every query of the source filters on the
one group id that also selects the database file, so inside one state every
row belongs to that group.

Timestamps (`datetime.now().isoformat()`) are external inputs; each mutating
operation takes the produced timestamp string as a parameter `now`.
Authorization (`is_authorized_user`) guards every mutating branch and, when it
denies, the handler returns before touching the database; the operations
below model the authorized path.
-/

set_option maxHeartbeats 1000000

namespace DSF

/-- Reserved note marker of carry-over entries. The source tags a carry-over
bill by beginning its description with this string and recognizes it with the
SQL pattern test used in `get_cycle_summary` and in the duplicate checks. -/
def carryMark : String := "[结余]"

/-- Embeds the SQL test `description LIKE '[结余]%'`: true exactly when the
description starts with `carryMark`. The pattern has its only wildcard at the
end and contains no letters (so SQLite's ASCII case folding is irrelevant),
hence it is a plain prefix test; it is stated on the character list so that
concrete inputs evaluate by kernel reduction. -/
def isCarryDesc (d : String) : Bool :=
  List.isPrefixOf carryMark.toList d.toList

/-- Row of the `cycles` table (group column omitted, see the file comment). -/
structure Cycle where
  cycle_id : Nat
  start_time : String
  end_time : Option String
  is_active : Bool
deriving DecidableEq, Repr

/-- Row of the `bills` table. -/
structure Bill where
  bill_id : Nat
  cycle_id : Nat
  user_id : Nat
  amount : Int
  description : String
  created_at : String
deriving DecidableEq, Repr

/-- Row of the `previous_balances` table. -/
structure PrevBalance where
  id : Nat
  amount : Int
  created_at : String
deriving DecidableEq, Repr

/-- Placeholder stored for a blank note: `" ".join(args)[:255] or " "`. -/
def blankDescription : String := " "

/-- Builds the stored description of an ordinary entry from the joined note
arguments: truncation to 255 characters, then the empty string is replaced by
the single-space placeholder (Python `or`). -/
def mkDescription (note : String) : String :=
  let d : String := String.mk (note.toList.take 255)
  if d.toList.isEmpty then blankDescription else d

/-- Default note of the `结余` command when no note argument is given. -/
def defaultCarryNote : String := "上期结余"

/-- Builds the stored description of a `结余` carry-over entry:
`f"[结余] {' '.join(args[1:]) or '上期结余'}"`. -/
def carryDescription (note : String) : String :=
  carryMark ++ " " ++ (if note.toList.isEmpty then defaultCarryNote else note)

/-- Stored description of a balance imported through the `importbalance`
button: the source inserts the literal `"[结余] 自动导入"`. -/
def autoImportDescription : String := "[结余] 自动导入"

/-- Ordering used by the `ORDER BY bill_id DESC` queries. -/
def billIdGe (a b : Bill) : Prop := b.bill_id ≤ a.bill_id

instance : DecidableRel billIdGe :=
  fun a b => inferInstanceAs (Decidable (b.bill_id ≤ a.bill_id))

instance : IsTotal Bill billIdGe :=
  ⟨fun a b => Or.symm (Nat.le_total a.bill_id b.bill_id)⟩

instance : IsTrans Bill billIdGe :=
  ⟨fun _ _ _ hab hbc => Nat.le_trans hbc hab⟩

/-- Rows of a cycle in the order produced by `ORDER BY bill_id DESC`
(bill ids are a primary key, hence pairwise distinct, so the descending
order is unique). -/
def sortByIdDesc (l : List Bill) : List Bill :=
  List.insertionSort billIdGe l

/-- Row with the greatest `bill_id`, i.e. the row produced by
`ORDER BY bill_id DESC LIMIT 1` (ids are unique, so ties cannot occur). -/
def maxBillAux : List Bill → Option Bill
  | [] => none
  | b :: rest =>
    match maxBillAux rest with
    | none => some b
    | some a => if a.bill_id < b.bill_id then some b else some a

/-- Embeds `SELECT ... FROM bills WHERE cycle_id = ? ORDER BY bill_id DESC
LIMIT 1` from the `撤销` branch. -/
def lastBill (bills : List Bill) (cid : Nat) : Option Bill :=
  maxBillAux (bills.filter (fun b => b.cycle_id == cid))

/-- Row with the greatest `id` of the `previous_balances` table, i.e. the row
produced by `ORDER BY id DESC LIMIT 1`. -/
def latestPrevAux : List PrevBalance → Option PrevBalance
  | [] => none
  | r :: rest =>
    match latestPrevAux rest with
    | none => some r
    | some a => if a.id < r.id then some r else some a

/-- Result record of `get_cycle_summary`. -/
structure Summary where
  total_deposits : Int
  deposit_count : Nat
  total_withdrawals : Int
  withdrawal_count : Nat
  previous_balance : Int
  net_balance : Int
  deposits : List (Int × String)
  withdrawals : List (Int × String)
deriving DecidableEq, Repr

/-- Embeds `get_cycle_summary(conn, cycle_id)`: one aggregate scan of the
cycle's bills (sums and counts of positive and of negative non-carry rows,
sum of the carry-tagged rows as `previous_balance`), the derived
`net_balance = total_deposits - total_withdrawals + previous_balance`
(`total_withdrawals` is the absolute value of the negative sum), and the two
`ORDER BY bill_id DESC LIMIT 5` listings. -/
def getCycleSummary (bills : List Bill) (cid : Nat) : Summary :=
  let cy := bills.filter (fun b => b.cycle_id == cid)
  let dep := cy.filter (fun b => decide (0 < b.amount) && !(isCarryDesc b.description))
  let wd := cy.filter (fun b => decide (b.amount < 0) && !(isCarryDesc b.description))
  let co := cy.filter (fun b => isCarryDesc b.description)
  let total_deposits : Int := (dep.map (fun b => b.amount)).sum
  let total_withdrawals : Int := |(wd.map (fun b => b.amount)).sum|
  let previous_balance : Int := (co.map (fun b => b.amount)).sum
  { total_deposits := total_deposits
    deposit_count := dep.length
    total_withdrawals := total_withdrawals
    withdrawal_count := wd.length
    previous_balance := previous_balance
    net_balance := total_deposits - total_withdrawals + previous_balance
    deposits := ((sortByIdDesc dep).take 5).map (fun b => (b.amount, b.created_at))
    withdrawals := ((sortByIdDesc wd).take 5).map (fun b => (b.amount, b.created_at)) }

/-- State of one group: the three mutable tables of its database (rows kept in
insertion order), the AUTOINCREMENT counters (SQLite starts them at 1), and
the process-wide active-cycle cache entry for this group. -/
structure GState where
  cycles : List Cycle
  bills : List Bill
  prevBalances : List PrevBalance
  nextCycleId : Nat
  nextBillId : Nat
  nextPrevId : Nat
  activeCache : Option Nat
deriving DecidableEq, Repr

/-- State of a group whose database was just created by `init_group_db`. -/
def initState : GState :=
  { cycles := [], bills := [], prevBalances := [],
    nextCycleId := 1, nextBillId := 1, nextPrevId := 1, activeCache := none }

/-- Value returned by `get_active_cycle`: the cached id when the cache entry
is present, otherwise the id of the row found by
`SELECT cycle_id FROM cycles WHERE group_id = ? AND is_active = TRUE`
(`fetchone`; with at most one active row the choice is determined). -/
def activeOf (s : GState) : Option Nat :=
  match s.activeCache with
  | some cid => some cid
  | none => (s.cycles.find? (fun c => c.is_active)).map (fun c => c.cycle_id)

/-- Cache write performed by `get_active_cycle`: on a cache miss the found id
is stored, guarded by Python truthiness (`if cycle_id:`, so an id of 0 would
not be cached; SQLite ids start at 1). -/
def cacheFill (s : GState) : GState :=
  match s.activeCache with
  | some _ => s
  | none =>
    match (s.cycles.find? (fun c => c.is_active)).map (fun c => c.cycle_id) with
    | some cid => if cid != 0 then { s with activeCache := some cid } else s
    | none => s

/-- Embeds `get_previous_balance`: the amount of the latest
`previous_balances` row, or 0 when the table is empty (`int(result[0] or 0)`
also maps a NULL amount to 0; inserted amounts are never NULL). -/
def getPreviousBalance (s : GState) : Int :=
  match latestPrevAux s.prevBalances with
  | none => 0
  | some r => r.amount

/-- Inserts one `bills` row and recomputes the summary, as done (inside one
connection, committed together) by the entry / carry-over branches. -/
def insertBill (cid : Nat) (user : Nat) (amount : Int) (desc : String)
    (now : String) (s : GState) : Summary × GState :=
  let nb : Bill :=
    { bill_id := s.nextBillId, cycle_id := cid, user_id := user,
      amount := amount, description := desc, created_at := now }
  let bills' := s.bills ++ [nb]
  (getCycleSummary bills' cid,
   { s with bills := bills', nextBillId := s.nextBillId + 1 })

/-- Outcome of the `上课` (open) branch. -/
inductive OpenResult
  | alreadyActive
  | opened (previousBalance : Int)
deriving DecidableEq, Repr

/-- Embeds the `上课` branch of `handle_command`: refuse when
`get_active_cycle` reports an active cycle; otherwise set every cycle row
inactive, insert a fresh active row, drop the cache entry, and read the
previous balance that the reply offers for import when it is non-zero. -/
def openCycle (now : String) (s : GState) : OpenResult × GState :=
  match activeOf s with
  | some _ => (.alreadyActive, cacheFill s)
  | none =>
    let s1 := cacheFill s
    let cycles' := (s1.cycles.map (fun c => { c with is_active := false }))
      ++ [{ cycle_id := s1.nextCycleId, start_time := now,
            end_time := none, is_active := true }]
    let s2 := { s1 with cycles := cycles',
                        nextCycleId := s1.nextCycleId + 1,
                        activeCache := none }
    (.opened (getPreviousBalance s2), s2)

/-- Outcome of the `下课` (close) branch. -/
inductive CloseResult
  | noActiveCycle
  | storageError
  | closed (summary : Summary)
deriving DecidableEq, Repr

/-- Embeds the `下课` branch of `handle_command`. The summary is computed
first; then one transaction marks the cycle inactive with its end time,
deletes every `previous_balances` row of the group and, only when the net
balance is non-zero, inserts the new row. `txFails` abstracts a failure
raised by any statement inside the transaction: SQLite `ROLLBACK` undoes all
of them, the handler returns the failure reply at once, and the cache pop
after the `try` block is skipped. -/
def closeCycle (now : String) (txFails : Bool) (s : GState) :
    CloseResult × GState :=
  match activeOf s with
  | none => (.noActiveCycle, cacheFill s)
  | some cid =>
    let s1 := cacheFill s
    let summary := getCycleSummary s1.bills cid
    let net := summary.net_balance
    if txFails then
      (.storageError, s1)
    else
      let cycles' := s1.cycles.map (fun c =>
        if c.cycle_id == cid then { c with is_active := false, end_time := some now }
        else c)
      let prev' : List PrevBalance :=
        if net != 0 then [{ id := s1.nextPrevId, amount := net, created_at := now }]
        else []
      let s2 := { s1 with cycles := cycles',
                          prevBalances := prev',
                          nextPrevId := if net != 0 then s1.nextPrevId + 1 else s1.nextPrevId,
                          activeCache := none }
      (.closed summary, s2)

/-- Outcome of the `+`/`-` entry branch. -/
inductive AddResult
  | noActiveCycle
  | invalidAmount
  | ok (summary : Summary)
deriving DecidableEq, Repr

/-- Integer value of an amount token of the shape sign-then-digits. Every
text reaching the entry branch was admitted by the handler's filter
`command_pattern`, whose first alternative forces the first whitespace token
`cmd` into exactly this shape, and on that shape Python `int` agrees with
this function; on any other token it is `none` (the `ValueError` path). -/
def parseSigned (t : String) : Option Int :=
  match t.toList with
  | [] => none
  | c :: rest =>
    if (c == '+' || c == '-') && !rest.isEmpty && rest.all Char.isDigit then
      let n : Nat := rest.foldl (fun acc d => acc * 10 + (d.toNat - 48)) 0
      some (if c == '-' then -(n : Int) else (n : Int))
    else none

/-- Embeds the `+`/`-` entry branch of `handle_command` on the raw first
token: require an active cycle, then parse the amount (`int(cmd)`), then
insert the row with the truncated-or-placeholder description and return the
summary recomputed after the insert. `args` is the already joined note
(`" ".join(args)`). -/
def handleAmountCmd (user : Nat) (cmd : String) (args : String) (now : String)
    (s : GState) : AddResult × GState :=
  match activeOf s with
  | none => (.noActiveCycle, cacheFill s)
  | some cid =>
    match parseSigned cmd with
    | none => (.invalidAmount, cacheFill s)
    | some amount =>
      let r := insertBill cid user amount (mkDescription args) now (cacheFill s)
      (.ok r.1, r.2)

/-- Entry branch with the amount already parsed (the shape admitted by
`command_pattern` guarantees the parse succeeds, see `parseSigned`). -/
def addEntry (user : Nat) (amount : Int) (note : String) (now : String)
    (s : GState) : AddResult × GState :=
  match activeOf s with
  | none => (.noActiveCycle, cacheFill s)
  | some cid =>
    let r := insertBill cid user amount (mkDescription note) now (cacheFill s)
    (.ok r.1, r.2)

/-- Outcome of the `结余` branch and of the `importbalance` button. -/
inductive CarryResult
  | noActiveCycle
  | alreadyImported
  | ok (summary : Summary)
deriving DecidableEq, Repr

/-- Embeds the `结余` branch of `handle_command` with the amount already
parsed (`int(args[0])`; a parse failure or a missing argument answers the
format-error reply before any database access, mutating nothing): require an
active cycle, refuse when the cycle already holds a carry-tagged row, else
insert the carry-tagged row and return the recomputed summary. -/
def recordCarryOver (user : Nat) (amount : Int) (note : String) (now : String)
    (s : GState) : CarryResult × GState :=
  match activeOf s with
  | none => (.noActiveCycle, cacheFill s)
  | some cid =>
    let s1 := cacheFill s
    if s1.bills.any (fun b => b.cycle_id == cid && isCarryDesc b.description) then
      (.alreadyImported, s1)
    else
      let r := insertBill cid user amount (carryDescription note) now s1
      (.ok r.1, r.2)

/-- Embeds the `importbalance` button of `button_callback`: same duplicate
check as `recordCarryOver`, fixed description `"[结余] 自动导入"`. -/
def importBalanceCb (user : Nat) (amount : Int) (now : String) (s : GState) :
    CarryResult × GState :=
  match activeOf s with
  | none => (.noActiveCycle, cacheFill s)
  | some cid =>
    let s1 := cacheFill s
    if s1.bills.any (fun b => b.cycle_id == cid && isCarryDesc b.description) then
      (.alreadyImported, s1)
    else
      let r := insertBill cid user amount autoImportDescription now s1
      (.ok r.1, r.2)

/-- Outcome of the `撤销` (undo) branch. -/
inductive UndoResult
  | noActiveCycle
  | emptyLedger
  | undone (deleted : Bill) (summary : Summary)
deriving DecidableEq, Repr

/-- Embeds the `撤销` branch of `handle_command`: require an active cycle,
fetch the row of the cycle with the greatest `bill_id`, refuse when there is
none, else delete exactly that row and return it with the summary recomputed
after the delete. -/
def undoLast (s : GState) : UndoResult × GState :=
  match activeOf s with
  | none => (.noActiveCycle, cacheFill s)
  | some cid =>
    let s1 := cacheFill s
    match lastBill s1.bills cid with
    | none => (.emptyLedger, s1)
    | some lb =>
      let bills' := s1.bills.filter (fun b => b.bill_id != lb.bill_id)
      (.undone lb (getCycleSummary bills' cid), { s1 with bills := bills' })

/-- Embeds the `details` button of `button_callback`: the page slice
`ORDER BY bill_id DESC LIMIT 10 OFFSET (page-1)*10` over all rows of the
cycle, and `total_pages = ceil(total_items/10)` when the cycle has rows,
else 1. Pages are 1-indexed. -/
def listPage (bills : List Bill) (cid : Nat) (page : Nat) : List Bill × Nat :=
  let cy := bills.filter (fun b => b.cycle_id == cid)
  let totalItems := cy.length
  let totalPages := if 0 < totalItems then (totalItems + 9) / 10 else 1
  (((sortByIdDesc cy).drop ((page - 1) * 10)).take 10, totalPages)

/-- One serialized command against a group's state. -/
inductive Op
  | openC (now : String)
  | closeC (now : String) (txFails : Bool)
  | amountCmd (user : Nat) (cmd : String) (args : String) (now : String)
  | carryCmd (user : Nat) (amount : Int) (note : String) (now : String)
  | importCb (user : Nat) (amount : Int) (now : String)
  | undoCmd
deriving DecidableEq, Repr

/-- State transition of one command (replies dropped). -/
def exec (op : Op) (s : GState) : GState :=
  match op with
  | .openC now => (openCycle now s).2
  | .closeC now txFails => (closeCycle now txFails s).2
  | .amountCmd user cmd args now => (handleAmountCmd user cmd args now s).2
  | .carryCmd user amount note now => (recordCarryOver user amount note now s).2
  | .importCb user amount now => (importBalanceCb user amount now s).2
  | .undoCmd => (undoLast s).2

/-- State reached from a fresh database by a sequence of commands. -/
def run (ops : List Op) : GState :=
  ops.foldl (fun s op => exec op s) initState

/-- Number of active rows of the `cycles` table (per group this is the
quantity `count(Cycle where is_active)` of invariant I1). -/
def activeCount (cycles : List Cycle) : Nat := cycles.countP (fun c => c.is_active)

/-- Well-formedness of the AUTOINCREMENT counter: every stored bill id is
below the next id SQLite will assign. It holds for every reachable state
(ids are assigned from the strictly increasing counter). -/
def Wf (s : GState) : Prop := ∀ b ∈ s.bills, b.bill_id < s.nextBillId

instance (s : GState) : Decidable (Wf s) :=
  inferInstanceAs (Decidable (∀ b ∈ s.bills, b.bill_id < s.nextBillId))

/-- Sum of the ordinary (non-carry-tagged) deposit entries of a cycle, as the
spec words it. -/
def sumOrdinaryDeposits (bills : List Bill) (cid : Nat) : Int :=
  ((bills.filter (fun b =>
    b.cycle_id == cid && decide (0 < b.amount) && !(isCarryDesc b.description))).map
      (fun b => b.amount)).sum

/-- Sum (in absolute value) of the ordinary withdrawal entries of a cycle, as
the spec words it; withdrawal entries are stored with negative amounts. -/
def sumOrdinaryWithdrawals (bills : List Bill) (cid : Nat) : Int :=
  |((bills.filter (fun b =>
    b.cycle_id == cid && decide (b.amount < 0) && !(isCarryDesc b.description))).map
      (fun b => b.amount)).sum|

/-- Sum of the carry-over-tagged entries of a cycle, as the spec words it. -/
def sumCarryOverEntries (bills : List Bill) (cid : Nat) : Int :=
  ((bills.filter (fun b => b.cycle_id == cid && isCarryDesc b.description)).map
    (fun b => b.amount)).sum

/-- Modelled from the spec: the net-balance formula claimed by I4, with the
previous `CarriedBalance` row of the group as a separate addend on top of the
carry-over-tagged entries. This is the claim side of C1, to be compared with
the `net_balance` the code computes. -/
def claimNetWithPrevRow (s : GState) (cid : Nat) : Int :=
  sumOrdinaryDeposits s.bills cid - sumOrdinaryWithdrawals s.bills cid
    + sumCarryOverEntries s.bills cid + getPreviousBalance s

/-! Model of the effect-retry shim (`_robust_telegram_call` and
`send_robust_reply`). A delivery attempt is abstracted as a function from the
attempt index (`attempt` in `range(max_retries)`) to its outcome. -/

/-- Outcome of one raw API call: success, the transient `TimedOut` error, or
any other exception. -/
inductive Outcome
  | ok
  | timedOut
  | otherErr
deriving DecidableEq, Repr

/-- Observable result of `_robust_telegram_call`: the value returned or the
exception propagated to the caller, together with the number of attempts made
and the list of back-off delays slept (in seconds, in order). `fellThrough`
is the implicit `None` return of a loop over an empty range (reachable only
when `max_retries = 0`). -/
inductive ShimResult
  | delivered (attempts : Nat) (sleeps : List Nat)
  | timeoutRaised (attempts : Nat) (sleeps : List Nat)
  | otherRaised (attempts : Nat) (sleeps : List Nat)
  | fellThrough (attempts : Nat) (sleeps : List Nat)
deriving DecidableEq, Repr

/-- Number of attempts actually made. -/
def ShimResult.attempts : ShimResult → Nat
  | .delivered n _ => n
  | .timeoutRaised n _ => n
  | .otherRaised n _ => n
  | .fellThrough n _ => n

/-- Delays slept between attempts. -/
def ShimResult.sleeps : ShimResult → List Nat
  | .delivered _ l => l
  | .timeoutRaised _ l => l
  | .otherRaised _ l => l
  | .fellThrough _ l => l

/-- True when an exception propagates out of `_robust_telegram_call`
(the re-`raise` after the last timed-out attempt, or the immediate re-`raise`
of any other exception). -/
def ShimResult.propagates : ShimResult → Bool
  | .delivered _ _ => false
  | .fellThrough _ _ => false
  | .timeoutRaised _ _ => true
  | .otherRaised _ _ => true

/-- Embeds the retry loop of `_robust_telegram_call`. `fuel` is the number of
attempts still allowed (`max_retries - attempt`). A successful call returns
at once; `TimedOut` on the last allowed attempt (`attempt + 1 == max_retries`)
re-raises; an earlier `TimedOut` sleeps the current delay, doubles it and
retries; any other exception re-raises immediately. -/
def robustLoop (api : Nat → Outcome) (attempt delay : Nat) (sleeps : List Nat) :
    Nat → ShimResult
  | 0 => .fellThrough attempt sleeps
  | fuel + 1 =>
    match api attempt with
    | .ok => .delivered (attempt + 1) sleeps
    | .otherErr => .otherRaised (attempt + 1) sleeps
    | .timedOut =>
      if fuel == 0 then .timeoutRaised (attempt + 1) sleeps
      else robustLoop api (attempt + 1) (2 * delay) (sleeps ++ [delay]) fuel

/-- Embeds `_robust_telegram_call(api_call, max_retries, initial_delay)`. -/
def robustTelegramCall (api : Nat → Outcome) (maxRetries initialDelay : Nat) : ShimResult :=
  robustLoop api 0 initialDelay [] maxRetries

/-- Embeds `send_robust_reply` applied to the default-parameter call
`_robust_telegram_call(target.reply_text, ...)` (`max_retries = 3`,
`initial_delay = 1`): the `try`/`except (TimedOut, Exception)` catches every
propagated failure and only logs it, so the function always returns to its
caller; the boolean records whether the delivery succeeded. -/
def sendRobustReply (api : Nat → Outcome) : Bool :=
  match robustTelegramCall api 3 1 with
  | .delivered _ _ => true
  | _ => false

/-! Concrete inputs used by the claim witnesses and counterexamples. -/

/-- State after open, deposit 5, close, open again: the second cycle (id 2)
is active and empty while the `previous_balances` table carries 5. -/
def cexState1 : GState :=
  run [Op.openC (""), Op.amountCmd 1 ("+5") ("") (""), Op.closeC ("") false,
       Op.openC ("")]

/-- Two concrete permuted entry lists. -/
def permBillsA : List Bill :=
  [{ bill_id := 1, cycle_id := 1, user_id := 7, amount := 5,
     description := blankDescription, created_at := "" },
   { bill_id := 2, cycle_id := 1, user_id := 7, amount := -2,
     description := blankDescription, created_at := "" },
   { bill_id := 3, cycle_id := 1, user_id := 7, amount := 9,
     description := carryDescription (""), created_at := "" }]

/-- The same three entries inserted in another order. -/
def permBillsB : List Bill :=
  [{ bill_id := 3, cycle_id := 1, user_id := 7, amount := 9,
     description := carryDescription (""), created_at := "" },
   { bill_id := 1, cycle_id := 1, user_id := 7, amount := 5,
     description := blankDescription, created_at := "" },
   { bill_id := 2, cycle_id := 1, user_id := 7, amount := -2,
     description := blankDescription, created_at := "" }]

/-- State with one active cycle (id 1) holding one deposit of 5. -/
def wStateOpen5 : GState :=
  run [Op.openC (""), Op.amountCmd 1 ("+5") ("") ("")]

/-- State with one active cycle (id 1) and an empty ledger. -/
def wStateOpen : GState := run [Op.openC ("")]

/-- State with one active cycle (id 1) already holding a carry-over entry. -/
def wStateCarry : GState :=
  run [Op.openC (""), Op.carryCmd 1 100 ("") ("")]

/-- State reached by importing a carry-over and then recording an ordinary
entry whose note begins with the reserved marker. -/
def cexState6 : GState :=
  run [Op.openC (""), Op.carryCmd 1 100 ("") (""),
       Op.amountCmd 1 ("+50") ("[结余] x") ("")]

/-- Twenty-five entries in one cycle, ids 1..25. -/
def bills25 : List Bill :=
  (List.range 25).map (fun i =>
    { bill_id := i + 1, cycle_id := 1, user_id := 0, amount := 1,
      description := blankDescription, created_at := "" })

/-- Delivery that times out once and then succeeds. -/
def apiOneTimeout : Nat → Outcome
  | 0 => Outcome.timedOut
  | _ => Outcome.ok

/-! Helper lemmas about the embedding. -/

theorem cacheFill_spec (s : GState) : ∃ o, cacheFill s = { s with activeCache := o } := by
  unfold cacheFill
  split
  · exact ⟨s.activeCache, rfl⟩
  · split
    · split
      · exact ⟨_, rfl⟩
      · exact ⟨s.activeCache, rfl⟩
    · exact ⟨s.activeCache, rfl⟩

@[simp] theorem cacheFill_cycles (s : GState) : (cacheFill s).cycles = s.cycles := by
  obtain ⟨o, ho⟩ := cacheFill_spec s
  rw [ho]

@[simp] theorem cacheFill_bills (s : GState) : (cacheFill s).bills = s.bills := by
  obtain ⟨o, ho⟩ := cacheFill_spec s
  rw [ho]

@[simp] theorem cacheFill_prevBalances (s : GState) :
    (cacheFill s).prevBalances = s.prevBalances := by
  obtain ⟨o, ho⟩ := cacheFill_spec s
  rw [ho]

@[simp] theorem cacheFill_nextCycleId (s : GState) :
    (cacheFill s).nextCycleId = s.nextCycleId := by
  obtain ⟨o, ho⟩ := cacheFill_spec s
  rw [ho]

@[simp] theorem cacheFill_nextBillId (s : GState) :
    (cacheFill s).nextBillId = s.nextBillId := by
  obtain ⟨o, ho⟩ := cacheFill_spec s
  rw [ho]

@[simp] theorem cacheFill_nextPrevId (s : GState) :
    (cacheFill s).nextPrevId = s.nextPrevId := by
  obtain ⟨o, ho⟩ := cacheFill_spec s
  rw [ho]

@[simp] theorem activeOf_cacheFill (s : GState) : activeOf (cacheFill s) = activeOf s := by
  unfold cacheFill
  cases hc : s.activeCache with
  | some cid => rfl
  | none =>
    cases hf : (s.cycles.find? (fun c => c.is_active)).map (fun c => c.cycle_id) with
    | none => rfl
    | some cid =>
      show activeOf (if (cid != 0) = true then { s with activeCache := some cid } else s)
        = activeOf s
      by_cases h0 : (cid != 0) = true
      · rw [if_pos h0]
        show some cid = activeOf s
        simp [activeOf, hc, hf]
      · rw [if_neg h0]

theorem maxBillAux_cons_isSome (b : Bill) (rest : List Bill) :
    (maxBillAux (b :: rest)).isSome = true := by
  simp only [maxBillAux]
  cases maxBillAux rest with
  | none => rfl
  | some a =>
    by_cases hlt : a.bill_id < b.bill_id
    · simp [hlt]
    · simp [hlt]

theorem maxBillAux_eq_none {l : List Bill} : maxBillAux l = none ↔ l = [] := by
  cases l with
  | nil => simp [maxBillAux]
  | cons b rest =>
    constructor
    · intro h
      have hs := maxBillAux_cons_isSome b rest
      rw [h] at hs
      simp at hs
    · intro h
      exact absurd h (List.cons_ne_nil b rest)

theorem maxBillAux_mem {l : List Bill} {a : Bill} (h : maxBillAux l = some a) : a ∈ l := by
  induction l generalizing a with
  | nil => simp [maxBillAux] at h
  | cons b rest ih =>
    simp only [maxBillAux] at h
    split at h
    · cases h
      exact List.mem_cons_self _ _
    next x hx =>
      split at h
      · cases h
        exact List.mem_cons_self _ _
      · cases h
        exact List.mem_cons_of_mem b (ih hx)

theorem maxBillAux_max {l : List Bill} {a : Bill} (h : maxBillAux l = some a) :
    ∀ b ∈ l, b.bill_id ≤ a.bill_id := by
  induction l generalizing a with
  | nil => simp
  | cons b rest ih =>
    simp only [maxBillAux] at h
    split at h
    next hnone =>
      cases h
      have hnil : rest = [] := maxBillAux_eq_none.mp hnone
      subst hnil
      intro c hc
      rcases List.mem_cons.mp hc with rfl | hm
      · exact Nat.le_refl _
      · simp at hm
    next x hx =>
      split at h
      next hlt =>
        cases h
        intro c hc
        rcases List.mem_cons.mp hc with rfl | hm
        · exact Nat.le_refl _
        · exact Nat.le_trans (ih hx c hm) (Nat.le_of_lt hlt)
      next hge =>
        cases h
        intro c hc
        rcases List.mem_cons.mp hc with rfl | hm
        · exact Nat.le_of_not_lt hge
        · exact ih hx c hm

theorem maxBillAux_append_big {l : List Bill} {nb : Bill}
    (h : ∀ b ∈ l, b.bill_id < nb.bill_id) : maxBillAux (l ++ [nb]) = some nb := by
  induction l with
  | nil => simp [maxBillAux]
  | cons b rest ih =>
    have hrest : maxBillAux (rest ++ [nb]) = some nb :=
      ih (fun c hc => h c (List.mem_cons_of_mem b hc))
    have hb : b.bill_id < nb.bill_id := h b (List.mem_cons_self b rest)
    rw [List.cons_append]
    simp only [maxBillAux]
    rw [hrest]
    simp [Nat.not_lt.mpr (Nat.le_of_lt hb)]

theorem lastBill_mem {bills : List Bill} {cid : Nat} {lb : Bill}
    (h : lastBill bills cid = some lb) : lb ∈ bills ∧ lb.cycle_id = cid := by
  have hm := maxBillAux_mem h
  rw [List.mem_filter] at hm
  exact ⟨hm.1, by simpa using hm.2⟩

theorem lastBill_max {bills : List Bill} {cid : Nat} {lb : Bill}
    (h : lastBill bills cid = some lb) :
    ∀ b ∈ bills, b.cycle_id = cid → b.bill_id ≤ lb.bill_id := by
  intro b hb hc
  exact maxBillAux_max h b (List.mem_filter.mpr ⟨hb, by simp [hc]⟩)

theorem lastBill_append {bills : List Bill} {nb : Bill} {cid : Nat}
    (hlt : ∀ b ∈ bills, b.bill_id < nb.bill_id) (hc : nb.cycle_id = cid) :
    lastBill (bills ++ [nb]) cid = some nb := by
  unfold lastBill
  rw [List.filter_append]
  have h1 : List.filter (fun b => b.cycle_id == cid) [nb] = [nb] := by simp [hc]
  rw [h1]
  exact maxBillAux_append_big (fun b hb => hlt b (List.mem_filter.mp hb).1)

theorem filter_ne_append {bills : List Bill} {nb : Bill}
    (hlt : ∀ b ∈ bills, b.bill_id < nb.bill_id) :
    (bills ++ [nb]).filter (fun b => b.bill_id != nb.bill_id) = bills := by
  rw [List.filter_append]
  have h1 : bills.filter (fun b => b.bill_id != nb.bill_id) = bills :=
    List.filter_eq_self.mpr (fun b hb => by simpa using Nat.ne_of_lt (hlt b hb))
  have h2 : List.filter (fun b => b.bill_id != nb.bill_id) [nb] = [] := by simp
  rw [h1, h2, List.append_nil]

@[simp] theorem insertBill_cycles (cid user : Nat) (amount : Int) (desc now : String)
    (s : GState) : ((insertBill cid user amount desc now s).2).cycles = s.cycles := rfl

@[simp] theorem insertBill_prevBalances (cid user : Nat) (amount : Int) (desc now : String)
    (s : GState) : ((insertBill cid user amount desc now s).2).prevBalances = s.prevBalances := rfl

@[simp] theorem insertBill_activeCache (cid user : Nat) (amount : Int) (desc now : String)
    (s : GState) : ((insertBill cid user amount desc now s).2).activeCache = s.activeCache := rfl

theorem insertBill_bills (cid user : Nat) (amount : Int) (desc now : String)
    (s : GState) :
    ((insertBill cid user amount desc now s).2).bills
      = s.bills ++ [{ bill_id := s.nextBillId, cycle_id := cid, user_id := user,
                      amount := amount, description := desc, created_at := now }] := rfl

theorem insertBill_fst (cid user : Nat) (amount : Int) (desc now : String) (s : GState) :
    (insertBill cid user amount desc now s).1
      = getCycleSummary
          (s.bills ++ [{ bill_id := s.nextBillId, cycle_id := cid, user_id := user,
                         amount := amount, description := desc, created_at := now }]) cid := rfl

theorem activeOf_set_bills (s : GState) (bills : List Bill) (n : Nat) :
    activeOf { s with bills := bills, nextBillId := n } = activeOf s := rfl

theorem activeCount_deactivateAll (l : List Cycle) :
    activeCount (l.map (fun c => { c with is_active := false })) = 0 := by
  unfold activeCount
  rw [List.countP_map]
  exact List.countP_eq_zero.mpr (fun c _ => by simp [Function.comp])

theorem handleAmountCmd_cycles (user : Nat) (cmd args now : String) (s : GState) :
    ((handleAmountCmd user cmd args now s).2).cycles = s.cycles := by
  unfold handleAmountCmd
  split
  · simp
  · split
    · simp
    · simp

theorem recordCarryOver_cycles (user : Nat) (amount : Int) (note now : String) (s : GState) :
    ((recordCarryOver user amount note now s).2).cycles = s.cycles := by
  unfold recordCarryOver
  split
  · simp
  · dsimp only
    split
    · simp
    · simp

theorem importBalanceCb_cycles (user : Nat) (amount : Int) (now : String) (s : GState) :
    ((importBalanceCb user amount now s).2).cycles = s.cycles := by
  unfold importBalanceCb
  split
  · simp
  · dsimp only
    split
    · simp
    · simp

theorem undoLast_cycles (s : GState) : ((undoLast s).2).cycles = s.cycles := by
  unfold undoLast
  split
  · simp
  · dsimp only
    split
    · simp
    · simp

theorem activeCount_closeMap_le (l : List Cycle) (cid : Nat) (now : String) :
    activeCount (l.map (fun c =>
      if c.cycle_id == cid then { c with is_active := false, end_time := some now } else c))
      ≤ activeCount l := by
  unfold activeCount
  rw [List.countP_map]
  apply List.countP_mono_left
  intro c _ hp
  by_cases hc : (c.cycle_id == cid) = true
  · simp [Function.comp, hc] at hp
  · simpa [Function.comp, hc] using hp

theorem activeCount_exec_le (op : Op) (s : GState)
    (h : activeCount s.cycles ≤ 1) : activeCount (exec op s).cycles ≤ 1 := by
  cases op with
  | openC now =>
    show activeCount ((openCycle now s).2).cycles ≤ 1
    unfold openCycle
    split
    · simpa using h
    · dsimp only
      rw [cacheFill_cycles]
      have h0 := activeCount_deactivateAll s.cycles
      unfold activeCount at h0 ⊢
      rw [List.countP_append, h0]
      simp
  | closeC now txFails =>
    show activeCount ((closeCycle now txFails s).2).cycles ≤ 1
    unfold closeCycle
    split
    · simpa using h
    · dsimp only
      split
      · simpa using h
      · dsimp only
        rw [cacheFill_cycles]
        exact Nat.le_trans (activeCount_closeMap_le s.cycles _ now) h
  | amountCmd user cmd args now =>
    show activeCount ((handleAmountCmd user cmd args now s).2).cycles ≤ 1
    rw [handleAmountCmd_cycles]
    exact h
  | carryCmd user amount note now =>
    show activeCount ((recordCarryOver user amount note now s).2).cycles ≤ 1
    rw [recordCarryOver_cycles]
    exact h
  | importCb user amount now =>
    show activeCount ((importBalanceCb user amount now s).2).cycles ≤ 1
    rw [importBalanceCb_cycles]
    exact h
  | undoCmd =>
    show activeCount ((undoLast s).2).cycles ≤ 1
    rw [undoLast_cycles]
    exact h

theorem foldl_exec_active_le (ops : List Op) :
    ∀ s : GState, activeCount s.cycles ≤ 1 →
      activeCount ((ops.foldl (fun s op => exec op s) s)).cycles ≤ 1 := by
  induction ops with
  | nil =>
    intro s h
    simpa using h
  | cons op rest ih =>
    intro s h
    rw [List.foldl_cons]
    exact ih _ (activeCount_exec_le op s h)

/-- C2: for every group and every sequence of open and close operations (in
fact every command sequence), at most one Cycle of the group is active at any
time, and open called while a Cycle is active fails with the already-active
reply and inserts no new Cycle. -/
theorem c2_at_most_one_active :
    (∀ ops : List Op, activeCount (run ops).cycles ≤ 1)
    ∧ ∀ (s : GState) (now : String), (∃ c ∈ s.cycles, c.is_active = true) →
        (openCycle now s).1 = OpenResult.alreadyActive
        ∧ ((openCycle now s).2).cycles = s.cycles := by
  constructor
  · intro ops
    exact foldl_exec_active_le ops initState (by simp [initState, activeCount])
  · rintro s now ⟨c, hc, hact⟩
    have hsome : activeOf s ≠ none := by
      unfold activeOf
      cases hcache : s.activeCache with
      | some cid => simp
      | none =>
        intro hmap
        rw [Option.map_eq_none'] at hmap
        rw [List.find?_eq_none] at hmap
        exact hmap c hc hact
    obtain ⟨cid, hcid⟩ := Option.ne_none_iff_exists'.mp hsome
    refine ⟨?_, ?_⟩
    · unfold openCycle
      rw [hcid]
    · unfold openCycle
      rw [hcid]
      exact cacheFill_cycles s

/-- C3: when close succeeds on an active cycle, the prior CarriedBalance rows
of the group are all deleted and one new row holding the computed net balance
is inserted exactly when that balance is non-zero; the balance subsequently
read is the net balance (0 through the absence of a row when it was zero). -/
theorem c3_close_replaces_carried_balance (s : GState) (cid : Nat) (now : String)
    (ha : activeOf s = some cid) :
    (closeCycle now false s).1 = CloseResult.closed (getCycleSummary s.bills cid)
    ∧ ((closeCycle now false s).2).prevBalances
        = (if (getCycleSummary s.bills cid).net_balance = 0 then []
           else [{ id := s.nextPrevId, amount := (getCycleSummary s.bills cid).net_balance,
                   created_at := now }])
    ∧ getPreviousBalance ((closeCycle now false s).2)
        = (getCycleSummary s.bills cid).net_balance := by
  unfold closeCycle
  rw [ha]
  dsimp only
  rw [cacheFill_bills]
  by_cases hn : (getCycleSummary s.bills cid).net_balance = 0
  · simp [hn, getPreviousBalance, latestPrevAux]
  · simp [hn, getPreviousBalance, latestPrevAux]

/-- C4: when any statement inside the close transaction fails, the rollback
leaves the three tables unchanged — in particular the cycle row is still
active with its end time unset — and the failure is reported to the caller. -/
theorem c4_close_failure_rolls_back (s : GState) (cid : Nat) (now : String)
    (ha : activeOf s = some cid) :
    (closeCycle now true s).1 = CloseResult.storageError
    ∧ ((closeCycle now true s).2).cycles = s.cycles
    ∧ ((closeCycle now true s).2).bills = s.bills
    ∧ ((closeCycle now true s).2).prevBalances = s.prevBalances
    ∧ activeOf ((closeCycle now true s).2) = some cid := by
  unfold closeCycle
  rw [ha]
  dsimp only
  simp [activeOf_cacheFill, ha]

/-- C5 (counterexample): the amount token `+0` is admitted by the command
shape, parses to the integer 0, and the entry branch accepts it — appending an
entry instead of failing with the invalid-amount reply, contrary to the
claimed `InvalidAmount` failure for a zero amount. -/
theorem c5_zero_amount_accepted :
    parseSigned ("+0") = some 0
    ∧ (handleAmountCmd 7 ("+0") ("") ("") wStateOpen).1 ≠ AddResult.invalidAmount
    ∧ ((handleAmountCmd 7 ("+0") ("") ("") wStateOpen).2).bills.length
        = wStateOpen.bills.length + 1 := by
  decide

/-- C5 (amended): the entry branch fails with the no-active-cycle reply when
the group has no active cycle and with the invalid-amount reply when the
amount token does not parse as an integer, appending nothing in either case;
zero is a parseable amount and is not rejected. On success it appends exactly
one entry (with the truncated-or-placeholder note) and returns the summary
recomputed after the insert. -/
theorem c5_add_entry_behaviour (s : GState) (user : Nat) (cmd args now : String) :
    (activeOf s = none →
        (handleAmountCmd user cmd args now s).1 = AddResult.noActiveCycle
        ∧ ((handleAmountCmd user cmd args now s).2).bills = s.bills)
    ∧ (∀ cid, activeOf s = some cid → parseSigned cmd = none →
        (handleAmountCmd user cmd args now s).1 = AddResult.invalidAmount
        ∧ ((handleAmountCmd user cmd args now s).2).bills = s.bills)
    ∧ (∀ cid a, activeOf s = some cid → parseSigned cmd = some a →
        ((handleAmountCmd user cmd args now s).2).bills
          = s.bills ++ [{ bill_id := s.nextBillId, cycle_id := cid, user_id := user,
                          amount := a, description := mkDescription args,
                          created_at := now }]
        ∧ (handleAmountCmd user cmd args now s).1
          = AddResult.ok (getCycleSummary
              (s.bills ++ [{ bill_id := s.nextBillId, cycle_id := cid, user_id := user,
                             amount := a, description := mkDescription args,
                             created_at := now }]) cid)) := by
  refine ⟨?_, ?_, ?_⟩
  · intro h
    unfold handleAmountCmd
    rw [h]
    exact ⟨rfl, cacheFill_bills s⟩
  · intro cid hcid hp
    unfold handleAmountCmd
    rw [hcid]
    dsimp only
    rw [hp]
    exact ⟨rfl, cacheFill_bills s⟩
  · intro cid a hcid hp
    unfold handleAmountCmd
    rw [hcid]
    dsimp only
    rw [hp]
    dsimp only
    constructor
    · rw [insertBill_bills, cacheFill_bills, cacheFill_nextBillId]
    · rw [insertBill_fst, cacheFill_bills, cacheFill_nextBillId]

/-- C6 (counterexample): a reachable state whose active cycle holds two
carry-over-tagged entries — one imported by the carry-over command and a
second appended by the ordinary entry branch with a note beginning with the
reserved marker — refuting the claim that at most one carry-over-tagged entry
ever exists per cycle. -/
theorem c6_two_carry_entries_reachable :
    (cexState6.bills.filter
      (fun b => b.cycle_id == 1 && isCarryDesc b.description)).length = 2 := by
  decide

theorem import_blocked (s : GState) (cid : Nat)
    (user : Nat) (amount : Int) (note now : String)
    (ha : activeOf s = some cid)
    (hdup : (s.bills.any (fun b => b.cycle_id == cid && isCarryDesc b.description)) = true) :
    (recordCarryOver user amount note now s).1 = CarryResult.alreadyImported
    ∧ ((recordCarryOver user amount note now s).2).bills = s.bills
    ∧ (importBalanceCb user amount now s).1 = CarryResult.alreadyImported
    ∧ ((importBalanceCb user amount now s).2).bills = s.bills := by
  unfold recordCarryOver importBalanceCb
  rw [ha]
  dsimp only
  rw [cacheFill_bills]
  simp [hdup]

/-- C6 (amended): on an active cycle that already contains a carry-over-tagged
entry, both the carry-over command and the import button fail with the
already-imported reply and append nothing, so the carry-over operations
themselves never create a second carry-over entry; an ordinary entry whose
note begins with the reserved marker can still add further carry-tagged
rows. -/
theorem c6_import_blocked_when_carry_exists (s : GState) (cid : Nat)
    (user : Nat) (amount : Int) (note now : String)
    (ha : activeOf s = some cid)
    (hdup : (s.bills.any (fun b => b.cycle_id == cid && isCarryDesc b.description)) = true) :
    (recordCarryOver user amount note now s).1 = CarryResult.alreadyImported
    ∧ ((recordCarryOver user amount note now s).2).bills = s.bills
    ∧ (importBalanceCb user amount now s).1 = CarryResult.alreadyImported
    ∧ ((importBalanceCb user amount now s).2).bills = s.bills :=
  import_blocked s cid user amount note now ha hdup

theorem undo_insert_helper (s : GState) (cid user : Nat) (amount : Int)
    (desc now : String) (hw : Wf s) (ha : activeOf s = some cid) :
    (undoLast ((insertBill cid user amount desc now (cacheFill s)).2)).1
      = UndoResult.undone
          { bill_id := s.nextBillId, cycle_id := cid, user_id := user,
            amount := amount, description := desc, created_at := now }
          (getCycleSummary s.bills cid)
    ∧ ((undoLast ((insertBill cid user amount desc now (cacheFill s)).2)).2).bills
      = s.bills := by
  have hact2 : activeOf ((insertBill cid user amount desc now (cacheFill s)).2)
      = some cid := by
    have h1 : activeOf ((insertBill cid user amount desc now (cacheFill s)).2)
        = activeOf (cacheFill s) := rfl
    rw [h1, activeOf_cacheFill, ha]
  have hb2 : ((insertBill cid user amount desc now (cacheFill s)).2).bills
      = s.bills ++ [{ bill_id := s.nextBillId, cycle_id := cid, user_id := user,
                      amount := amount, description := desc, created_at := now }] := by
    rw [insertBill_bills, cacheFill_bills, cacheFill_nextBillId]
  have hlt : ∀ b ∈ s.bills,
      b.bill_id < ({ bill_id := s.nextBillId, cycle_id := cid, user_id := user,
                     amount := amount, description := desc,
                     created_at := now } : Bill).bill_id :=
    fun b hb => hw b hb
  unfold undoLast
  rw [hact2]
  dsimp only
  rw [cacheFill_bills, hb2]
  rw [lastBill_append hlt rfl]
  dsimp only
  rw [filter_ne_append hlt]
  exact ⟨rfl, rfl⟩

/-- C7: undo is the exact inverse of the latest insertion — adding an entry
(ordinary or carry-over) and then undoing returns the deleted row together
with the summary recomputed after the delete, which equals the summary before
the insertion, and restores the bills table; on an active cycle with no
entry, undo fails with the empty-ledger reply and mutates nothing; when an
entry exists, undo deletes exactly the row of the cycle with the greatest id,
i.e. the most recently created one. -/
theorem c7_undo_inverse (s : GState) (cid : Nat) (hw : Wf s)
    (ha : activeOf s = some cid) :
    (∀ (user : Nat) (amount : Int) (note now : String),
        (undoLast ((addEntry user amount note now s).2)).1
          = UndoResult.undone
              { bill_id := s.nextBillId, cycle_id := cid, user_id := user,
                amount := amount, description := mkDescription note, created_at := now }
              (getCycleSummary s.bills cid)
        ∧ ((undoLast ((addEntry user amount note now s).2)).2).bills = s.bills)
    ∧ (∀ (user : Nat) (amount : Int) (note now : String),
        (s.bills.any (fun b => b.cycle_id == cid && isCarryDesc b.description)) = false →
        (undoLast ((recordCarryOver user amount note now s).2)).1
          = UndoResult.undone
              { bill_id := s.nextBillId, cycle_id := cid, user_id := user,
                amount := amount, description := carryDescription note, created_at := now }
              (getCycleSummary s.bills cid)
        ∧ ((undoLast ((recordCarryOver user amount note now s).2)).2).bills = s.bills)
    ∧ (lastBill s.bills cid = none →
        (undoLast s).1 = UndoResult.emptyLedger
        ∧ ((undoLast s).2).bills = s.bills)
    ∧ (∀ lb, lastBill s.bills cid = some lb →
        lb ∈ s.bills ∧ lb.cycle_id = cid
        ∧ (∀ b ∈ s.bills, b.cycle_id = cid → b.bill_id ≤ lb.bill_id)
        ∧ ((undoLast s).2).bills
            = s.bills.filter (fun b => b.bill_id != lb.bill_id)) := by
  refine ⟨?_, ?_, ?_, ?_⟩
  · intro user amount note now
    have h1 : (addEntry user amount note now s).2
        = (insertBill cid user amount (mkDescription note) now (cacheFill s)).2 := by
      unfold addEntry
      rw [ha]
    rw [h1]
    exact undo_insert_helper s cid user amount (mkDescription note) now hw ha
  · intro user amount note now hnd
    have h1 : (recordCarryOver user amount note now s).2
        = (insertBill cid user amount (carryDescription note) now (cacheFill s)).2 := by
      unfold recordCarryOver
      rw [ha]
      dsimp only
      rw [cacheFill_bills, hnd]
      simp
    rw [h1]
    exact undo_insert_helper s cid user amount (carryDescription note) now hw ha
  · intro hnone
    unfold undoLast
    rw [ha]
    dsimp only
    rw [cacheFill_bills, hnone]
    exact ⟨rfl, cacheFill_bills s⟩
  · intro lb hlb
    obtain ⟨hmem, hcid⟩ := lastBill_mem hlb
    refine ⟨hmem, hcid, lastBill_max hlb, ?_⟩
    unfold undoLast
    rw [ha]
    dsimp only
    rw [cacheFill_bills, hlb]

theorem length_sortByIdDesc (l : List Bill) : (sortByIdDesc l).length = l.length :=
  (List.perm_insertionSort billIdGe l).length_eq

theorem sorted_sortByIdDesc (l : List Bill) : (sortByIdDesc l).Pairwise billIdGe :=
  List.sorted_insertionSort billIdGe l

/-- C8: the details page over a cycle with n entries reports
`total_pages = max 1 (ceil (n / 10))` for every 1-indexed page, returns a
slice of length `min 10 (n - (page-1)*10)` ordered newest-first (descending
ids), and a page beyond range returns the empty slice with that same
`total_pages`. -/
theorem c8_pagination (bills : List Bill) (cid : Nat) (page : Nat) (_hp : 1 ≤ page) :
    (listPage bills cid page).2
      = max 1 (((bills.filter (fun b => b.cycle_id == cid)).length + 9) / 10)
    ∧ (listPage bills cid page).1.length
      = min 10 ((bills.filter (fun b => b.cycle_id == cid)).length - (page - 1) * 10)
    ∧ ((bills.filter (fun b => b.cycle_id == cid)).length ≤ (page - 1) * 10 →
        (listPage bills cid page).1 = [])
    ∧ (listPage bills cid page).1.Pairwise billIdGe := by
  unfold listPage
  dsimp only
  refine ⟨?_, ?_, ?_, ?_⟩
  · split
    · omega
    · omega
  · rw [List.length_take, List.length_drop, length_sortByIdDesc]
  · intro hle
    have hd : (sortByIdDesc (bills.filter (fun b => b.cycle_id == cid))).drop
        ((page - 1) * 10) = [] := by
      apply List.drop_eq_nil_of_le
      rw [length_sortByIdDesc]
      exact hle
    rw [hd]
    rfl
  · exact List.Pairwise.sublist
      ((List.take_sublist _ _).trans (List.drop_sublist _ _))
      (sorted_sortByIdDesc _)

theorem robustLoop_succ (api : Nat → Outcome) (a d : Nat) (sl : List Nat) (fuel : Nat) :
    robustLoop api a d sl (fuel + 1)
      = match api a with
        | .ok => .delivered (a + 1) sl
        | .otherErr => .otherRaised (a + 1) sl
        | .timedOut =>
          if fuel == 0 then .timeoutRaised (a + 1) sl
          else robustLoop api (a + 1) (2 * d) (sl ++ [d]) fuel := rfl

/-- C9: with the default parameters (3 attempts, initial delay 1s) the shim
makes at most 3 attempts; a success returns at once; a non-timeout failure
aborts on the spot with no sleeps; each timeout before the last allowed
attempt sleeps the current delay and doubles it (so the sleeps are 1s then
2s); after the third timeout the failure propagates, and the reply wrapper
catches it, logs, and returns instead of re-raising into its caller. -/
theorem c9_retry_shim (api : Nat → Outcome) :
    (robustTelegramCall api 3 1).attempts ≤ 3
    ∧ (api 0 = Outcome.ok → robustTelegramCall api 3 1 = ShimResult.delivered 1 [])
    ∧ (api 0 = Outcome.otherErr →
        robustTelegramCall api 3 1 = ShimResult.otherRaised 1 [])
    ∧ (api 0 = Outcome.timedOut → api 1 = Outcome.ok →
        robustTelegramCall api 3 1 = ShimResult.delivered 2 [1])
    ∧ (api 0 = Outcome.timedOut → api 1 = Outcome.otherErr →
        robustTelegramCall api 3 1 = ShimResult.otherRaised 2 [1])
    ∧ (api 0 = Outcome.timedOut → api 1 = Outcome.timedOut → api 2 = Outcome.ok →
        robustTelegramCall api 3 1 = ShimResult.delivered 3 [1, 2])
    ∧ (api 0 = Outcome.timedOut → api 1 = Outcome.timedOut → api 2 = Outcome.otherErr →
        robustTelegramCall api 3 1 = ShimResult.otherRaised 3 [1, 2])
    ∧ (api 0 = Outcome.timedOut → api 1 = Outcome.timedOut → api 2 = Outcome.timedOut →
        robustTelegramCall api 3 1 = ShimResult.timeoutRaised 3 [1, 2])
    ∧ ((robustTelegramCall api 3 1).propagates = true → sendRobustReply api = false) := by
  rcases h0 : api 0 with _ | _ | _ <;> rcases h1 : api 1 with _ | _ | _ <;>
    rcases h2 : api 2 with _ | _ | _ <;>
    simp [robustTelegramCall, robustLoop_succ, h0, h1, h2, ShimResult.attempts,
      ShimResult.propagates, sendRobustReply]

theorem summary_append_carry (bills : List Bill) (cid : Nat) (nb : Bill)
    (hc : nb.cycle_id = cid) (hcar : isCarryDesc nb.description = true) :
    (getCycleSummary (bills ++ [nb]) cid).total_deposits
      = (getCycleSummary bills cid).total_deposits
    ∧ (getCycleSummary (bills ++ [nb]) cid).deposit_count
      = (getCycleSummary bills cid).deposit_count
    ∧ (getCycleSummary (bills ++ [nb]) cid).total_withdrawals
      = (getCycleSummary bills cid).total_withdrawals
    ∧ (getCycleSummary (bills ++ [nb]) cid).withdrawal_count
      = (getCycleSummary bills cid).withdrawal_count
    ∧ (getCycleSummary (bills ++ [nb]) cid).previous_balance
      = (getCycleSummary bills cid).previous_balance + nb.amount
    ∧ (getCycleSummary (bills ++ [nb]) cid).net_balance
      = (getCycleSummary bills cid).net_balance + nb.amount := by
  simp only [getCycleSummary, List.filter_append, List.filter_cons, List.filter_nil,
    hc, hcar, beq_self_eq_true, Bool.not_true, Bool.and_false, Bool.and_true,
    if_true, if_false, List.append_nil, List.map_append, List.sum_append,
    List.length_append, List.map_cons, List.map_nil, List.sum_cons, List.sum_nil,
    List.length_cons, List.length_nil, Bool.false_eq_true]
  exact ⟨trivial, trivial, trivial, trivial, by ring, by ring⟩

theorem activeOf_addEntry (s : GState) (cid user : Nat) (amount : Int)
    (note now : String) (ha : activeOf s = some cid) :
    activeOf ((addEntry user amount note now s).2) = some cid := by
  unfold addEntry
  rw [ha]
  dsimp only
  have h1 : activeOf ((insertBill cid user amount (mkDescription note) now (cacheFill s)).2)
      = activeOf (cacheFill s) := rfl
  rw [h1, activeOf_cacheFill, ha]

theorem addEntry_bills (s : GState) (cid user : Nat) (amount : Int)
    (note now : String) (ha : activeOf s = some cid) :
    ((addEntry user amount note now s).2).bills
      = s.bills ++ [{ bill_id := s.nextBillId, cycle_id := cid, user_id := user,
                      amount := amount, description := mkDescription note,
                      created_at := now }] := by
  unfold addEntry
  rw [ha]
  dsimp only
  rw [insertBill_bills, cacheFill_bills, cacheFill_nextBillId]

/-- C10: classification is decided solely by the stored note's marker: an
entry appended by the ordinary entry branch whose stored note begins with the
reserved marker is excluded from the deposit and withdrawal sums and counts,
its amount goes into the summary's previous-balance (and hence net-balance)
field, and it blocks both carry-over import operations with the
already-imported reply. -/
theorem c10_note_marker_classification (s : GState) (cid user : Nat)
    (amount : Int) (note now : String)
    (ha : activeOf s = some cid)
    (hcarry : isCarryDesc (mkDescription note) = true) :
    (getCycleSummary ((addEntry user amount note now s).2).bills cid).total_deposits
      = (getCycleSummary s.bills cid).total_deposits
    ∧ (getCycleSummary ((addEntry user amount note now s).2).bills cid).deposit_count
      = (getCycleSummary s.bills cid).deposit_count
    ∧ (getCycleSummary ((addEntry user amount note now s).2).bills cid).total_withdrawals
      = (getCycleSummary s.bills cid).total_withdrawals
    ∧ (getCycleSummary ((addEntry user amount note now s).2).bills cid).withdrawal_count
      = (getCycleSummary s.bills cid).withdrawal_count
    ∧ (getCycleSummary ((addEntry user amount note now s).2).bills cid).previous_balance
      = (getCycleSummary s.bills cid).previous_balance + amount
    ∧ (getCycleSummary ((addEntry user amount note now s).2).bills cid).net_balance
      = (getCycleSummary s.bills cid).net_balance + amount
    ∧ ∀ (u2 : Nat) (a2 : Int) (note2 now2 : String),
        (recordCarryOver u2 a2 note2 now2 ((addEntry user amount note now s).2)).1
          = CarryResult.alreadyImported
        ∧ ((recordCarryOver u2 a2 note2 now2 ((addEntry user amount note now s).2)).2).bills
          = ((addEntry user amount note now s).2).bills
        ∧ (importBalanceCb u2 a2 now2 ((addEntry user amount note now s).2)).1
          = CarryResult.alreadyImported
        ∧ ((importBalanceCb u2 a2 now2 ((addEntry user amount note now s).2)).2).bills
          = ((addEntry user amount note now s).2).bills := by
  have hb := addEntry_bills s cid user amount note now ha
  have hsum := summary_append_carry s.bills cid
    { bill_id := s.nextBillId, cycle_id := cid, user_id := user,
      amount := amount, description := mkDescription note, created_at := now }
    rfl hcarry
  rw [hb]
  refine ⟨hsum.1, hsum.2.1, hsum.2.2.1, hsum.2.2.2.1, hsum.2.2.2.2.1, hsum.2.2.2.2.2, ?_⟩
  intro u2 a2 note2 now2
  have hact2 := activeOf_addEntry s cid user amount note now ha
  have hdup2 : (((addEntry user amount note now s).2).bills.any
      (fun b => b.cycle_id == cid && isCarryDesc b.description)) = true := by
    rw [hb]
    simp [hcarry]
  have h := import_blocked ((addEntry user amount note now s).2) cid u2 a2 note2 now2
    hact2 hdup2
  rw [hb] at h
  exact h

theorem net_balance_formula (bills : List Bill) (cid : Nat) :
    (getCycleSummary bills cid).net_balance
      = (((bills.filter (fun b => b.cycle_id == cid)).filter
            (fun b => decide (0 < b.amount) && !(isCarryDesc b.description))).map
              (fun b => b.amount)).sum
        - |(((bills.filter (fun b => b.cycle_id == cid)).filter
            (fun b => decide (b.amount < 0) && !(isCarryDesc b.description))).map
              (fun b => b.amount)).sum|
        + (((bills.filter (fun b => b.cycle_id == cid)).filter
            (fun b => isCarryDesc b.description)).map (fun b => b.amount)).sum := rfl

/-- C1 (counterexample): in the reachable state after open, a deposit of 5,
close and open again, the active cycle (id 2) has net balance 0, while the
claimed formula — which adds the previous CarriedBalance row as a separate
addend — yields 5: the summary never reads the `previous_balances` table. -/
theorem c1_net_balance_counterexample :
    activeOf cexState1 = some 2
    ∧ getPreviousBalance cexState1 = 5
    ∧ (getCycleSummary cexState1.bills 2).net_balance ≠ claimNetWithPrevRow cexState1 2 := by
  decide

/-- C1 (amended): the summary's net balance equals the sum of ordinary
deposits minus the sum of ordinary withdrawals plus the sum of
carry-over-tagged entries (with no separate previous-CarriedBalance addend:
the carried balance contributes only once imported as a carry-over entry),
and the value is invariant under every permutation of the entry list. -/
theorem c1_net_balance_amended (bills bills' : List Bill) (cid : Nat)
    (hperm : bills.Perm bills') :
    (getCycleSummary bills cid).net_balance
      = sumOrdinaryDeposits bills cid - sumOrdinaryWithdrawals bills cid
        + sumCarryOverEntries bills cid
    ∧ (getCycleSummary bills cid).net_balance
      = (getCycleSummary bills' cid).net_balance := by
  constructor
  · rw [net_balance_formula]
    unfold sumOrdinaryDeposits sumOrdinaryWithdrawals sumCarryOverEntries
    rw [List.filter_filter, List.filter_filter, List.filter_filter]
    have hd : ∀ p : Bill → Bool,
        bills.filter (fun b => p b && (b.cycle_id == cid))
          = bills.filter (fun b => (b.cycle_id == cid) && p b) :=
      fun p => List.filter_congr (fun b _ => Bool.and_comm (p b) (b.cycle_id == cid))
    rw [hd, hd, hd]
    simp only [← Bool.and_assoc]
  · rw [net_balance_formula, net_balance_formula]
    have hs : ∀ p : Bill → Bool,
        (((bills.filter (fun b => b.cycle_id == cid)).filter p).map
          (fun b => b.amount)).sum
        = (((bills'.filter (fun b => b.cycle_id == cid)).filter p).map
          (fun b => b.amount)).sum :=
      fun p => (((hperm.filter _).filter p).map _).sum_eq
    rw [hs, hs, hs]

/-- C1 (witness): the amended net-balance theorem evaluated on two concrete
permuted entry lists. -/
theorem c1_net_balance_amended_witness :
    permBillsA.Perm permBillsB
    ∧ ((getCycleSummary permBillsA 1).net_balance
        = sumOrdinaryDeposits permBillsA 1 - sumOrdinaryWithdrawals permBillsA 1
          + sumCarryOverEntries permBillsA 1
      ∧ (getCycleSummary permBillsA 1).net_balance
        = (getCycleSummary permBillsB 1).net_balance) :=
  ⟨by decide, c1_net_balance_amended permBillsA permBillsB 1 (by decide)⟩

/-- C2 (witness): the invariant evaluated on a concrete double-open sequence,
and the already-active refusal on a concrete state with an active cycle. -/
theorem c2_at_most_one_active_witness :
    activeCount (run [Op.openC (""), Op.openC ("")]).cycles ≤ 1
    ∧ (∃ c ∈ wStateOpen.cycles, c.is_active = true)
    ∧ ((openCycle ("") wStateOpen).1 = OpenResult.alreadyActive
        ∧ ((openCycle ("") wStateOpen).2).cycles = wStateOpen.cycles) :=
  ⟨c2_at_most_one_active.1 [Op.openC (""), Op.openC ("")], by decide,
   c2_at_most_one_active.2 wStateOpen ("") (by decide)⟩

/-- C3 (witness): closing a concrete cycle with net balance 5. -/
theorem c3_close_replaces_carried_balance_witness :
    activeOf wStateOpen5 = some 1
    ∧ ((closeCycle ("") false wStateOpen5).1
        = CloseResult.closed (getCycleSummary wStateOpen5.bills 1)
      ∧ ((closeCycle ("") false wStateOpen5).2).prevBalances
        = (if (getCycleSummary wStateOpen5.bills 1).net_balance = 0 then []
           else [{ id := wStateOpen5.nextPrevId,
                   amount := (getCycleSummary wStateOpen5.bills 1).net_balance,
                   created_at := "" }])
      ∧ getPreviousBalance ((closeCycle ("") false wStateOpen5).2)
        = (getCycleSummary wStateOpen5.bills 1).net_balance) :=
  ⟨by decide, c3_close_replaces_carried_balance wStateOpen5 1 ("") (by decide)⟩

/-- C4 (witness): a failing close transaction on a concrete state. -/
theorem c4_close_failure_rolls_back_witness :
    activeOf wStateOpen5 = some 1
    ∧ ((closeCycle ("") true wStateOpen5).1 = CloseResult.storageError
      ∧ ((closeCycle ("") true wStateOpen5).2).cycles = wStateOpen5.cycles
      ∧ ((closeCycle ("") true wStateOpen5).2).bills = wStateOpen5.bills
      ∧ ((closeCycle ("") true wStateOpen5).2).prevBalances = wStateOpen5.prevBalances
      ∧ activeOf ((closeCycle ("") true wStateOpen5).2) = some 1) :=
  ⟨by decide, c4_close_failure_rolls_back wStateOpen5 1 ("") (by decide)⟩

/-- C5 (witness): a successful entry insertion on a concrete state. -/
theorem c5_add_entry_behaviour_witness :
    activeOf wStateOpen = some 1
    ∧ parseSigned ("+12") = some 12
    ∧ (((handleAmountCmd 7 ("+12") ("hi") ("") wStateOpen).2).bills
        = wStateOpen.bills
          ++ [{ bill_id := wStateOpen.nextBillId, cycle_id := 1, user_id := 7,
                amount := 12, description := mkDescription ("hi"), created_at := "" }]
      ∧ (handleAmountCmd 7 ("+12") ("hi") ("") wStateOpen).1
        = AddResult.ok (getCycleSummary
            (wStateOpen.bills
              ++ [{ bill_id := wStateOpen.nextBillId, cycle_id := 1, user_id := 7,
                    amount := 12, description := mkDescription ("hi"),
                    created_at := "" }]) 1)) :=
  ⟨by decide, by decide,
   (c5_add_entry_behaviour wStateOpen 7 ("+12") ("hi") ("")).2.2 1 12 (by decide) (by decide)⟩

/-- C6 (witness): both import operations refused on a concrete cycle that
already holds a carry-over entry. -/
theorem c6_import_blocked_when_carry_exists_witness :
    activeOf wStateCarry = some 1
    ∧ (wStateCarry.bills.any (fun b => b.cycle_id == 1 && isCarryDesc b.description)) = true
    ∧ ((recordCarryOver 2 7 ("") ("") wStateCarry).1 = CarryResult.alreadyImported
      ∧ ((recordCarryOver 2 7 ("") ("") wStateCarry).2).bills = wStateCarry.bills
      ∧ (importBalanceCb 2 7 ("") wStateCarry).1 = CarryResult.alreadyImported
      ∧ ((importBalanceCb 2 7 ("") wStateCarry).2).bills = wStateCarry.bills) :=
  ⟨by decide, by decide,
   c6_import_blocked_when_carry_exists wStateCarry 1 2 7 ("") ("") (by decide) (by decide)⟩

/-- C7 (witness): add-then-undo on a concrete state restores the bills and
returns the pre-insertion summary. -/
theorem c7_undo_inverse_witness :
    Wf wStateOpen5
    ∧ activeOf wStateOpen5 = some 1
    ∧ ((undoLast ((addEntry 9 7 ("x") ("") wStateOpen5).2)).1
        = UndoResult.undone
            { bill_id := wStateOpen5.nextBillId, cycle_id := 1, user_id := 9,
              amount := 7, description := mkDescription ("x"), created_at := "" }
            (getCycleSummary wStateOpen5.bills 1)
      ∧ ((undoLast ((addEntry 9 7 ("x") ("") wStateOpen5).2)).2).bills
        = wStateOpen5.bills) :=
  ⟨by decide, by decide,
   (c7_undo_inverse wStateOpen5 1 (by decide) (by decide)).1 9 7 ("x") ("")⟩

/-- C8 (witness): twenty-five entries give three pages; page 3 holds 5 items;
page 4 is beyond range and returns the empty slice with the same total. -/
theorem c8_pagination_witness :
    (listPage bills25 1 4).1 = []
    ∧ (listPage bills25 1 4).2 = 3
    ∧ (listPage bills25 1 3).1.length = 5
    ∧ (listPage bills25 1 3).2 = 3 :=
  ⟨(c8_pagination bills25 1 4 (by decide)).2.2.1 (by decide),
   by decide, by decide, by decide⟩

/-- C9 (witness): a delivery that times out once and then succeeds is retried
exactly once after a 1-second sleep. -/
theorem c9_retry_shim_witness :
    apiOneTimeout 0 = Outcome.timedOut
    ∧ apiOneTimeout 1 = Outcome.ok
    ∧ robustTelegramCall apiOneTimeout 3 1 = ShimResult.delivered 2 [1] :=
  ⟨rfl, rfl, (c9_retry_shim apiOneTimeout).2.2.2.1 rfl rfl⟩

/-- C10 (witness): an ordinary entry of amount 40 whose note begins with the
reserved marker leaves the deposit total unchanged and raises the summary's
previous-balance field by 40 on a concrete state. -/
theorem c10_note_marker_classification_witness :
    activeOf wStateOpen5 = some 1
    ∧ isCarryDesc (mkDescription ("[结余] oops")) = true
    ∧ (getCycleSummary ((addEntry 3 40 ("[结余] oops") ("") wStateOpen5).2).bills 1).previous_balance
        = (getCycleSummary wStateOpen5.bills 1).previous_balance + 40
    ∧ (getCycleSummary ((addEntry 3 40 ("[结余] oops") ("") wStateOpen5).2).bills 1).total_deposits
        = (getCycleSummary wStateOpen5.bills 1).total_deposits :=
  ⟨by decide, by decide,
   (c10_note_marker_classification wStateOpen5 1 3 40 ("[结余] oops") ("")
      (by decide) (by decide)).2.2.2.2.1,
   (c10_note_marker_classification wStateOpen5 1 3 40 ("[结余] oops") ("")
      (by decide) (by decide)).1⟩

end DSF
